import Mathlib

/-! Shallow embedding of `src/shared/traders/tinkoff-grpc-web.js`
(class `TinkoffGrpcWebTrader`): the quotation conversions, the
ref-counted subscription registry (`refs.orderbook` / `refs.allTrades`),
the market-data (re)subscription and reconnect logic
(`#resubscribeToMarketData`), order-book message routing
(`onOrderbookMessage`) and the recent-trades fetcher (`allTrades`).
JS `Map`s are modelled as insertion-ordered association lists, JS
numbers as exact rationals, and the asynchronous session lifecycle as
explicit action / event traces. -/

namespace Tinkoff

/-- Model of `Map.prototype.set`: overwrite in place if the key exists,
otherwise append (preserving the insertion-order iteration of JS maps). -/
def mapSet {α β : Type} [DecidableEq α] (k : α) (v : β) : List (α × β) → List (α × β)
  | [] => [(k, v)]
  | (k', v') :: rest => if k = k' then (k, v) :: rest else (k', v') :: mapSet k v rest

/-- Model of `Map.prototype.get`: the value stored at the key, if any. -/
def mapGet {α β : Type} [DecidableEq α] (k : α) : List (α × β) → Option β
  | [] => none
  | (k', v') :: rest => if k = k' then some v' else mapGet k rest

/-- Model of `Map.prototype.delete`: remove the entry with the given key,
if present.  Never signals an error. -/
def mapDelete {α β : Type} [DecidableEq α] (k : α) : List (α × β) → List (α × β)
  | [] => []
  | (k', v') :: rest => if k = k' then rest else (k', v') :: mapDelete k rest

/-- Wire-format quotation: integer units plus a nano fraction
(`market-data.js` `Quotation`). -/
structure Quotation where
  units : Int
  nano : Int
deriving DecidableEq, Repr

/-- Source `toQuotation` (lines 25-35): split a number into sign,
whole units (`Math.floor` of the absolute value) and a nano part
(`Math.round` of the scaled remainder; JS `Math.round x = ⌊x + 1/2⌋`,
which is Lean's `round` on the nonnegative arguments used here). -/
def toQuotation (value : ℚ) : Quotation :=
  let sign : Int := if value < 0 then -1 else 1
  let absValue : ℚ := |value|
  let units : Int := ⌊absValue⌋
  let nano : Int := round ((absValue - (units : ℚ)) * 1000000000)
  { units := sign * units, nano := sign * nano }

/-- Source `toNumber` (lines 37-39) on a present quotation value.  The JS
falsy guard (`value ? ... : value`) only matters for absent values, which
never reach the conversion in the modelled call sites. -/
def toNumber (value : Quotation) : ℚ :=
  (value.units : ℚ) + (value.nano : ℚ) / 1000000000

/-- Instrument record: `_id` (domain key), `tinkoffFigi` (upstream key)
and display `symbol`. -/
structure Instrument where
  id : Nat
  tinkoffFigi : String
  symbol : String
deriving DecidableEq, Repr

/-- One level of the wire order book. -/
structure OrderbookLevel where
  price : Quotation
  quantity : Int
deriving DecidableEq, Repr

/-- Wire order-book message; `bids` / `asks` may be absent
(the source guards with `orderbook?.bids?.map?.(...) ?? []`). -/
structure Orderbook where
  figi : String
  bids : Option (List OrderbookLevel)
  asks : Option (List OrderbookLevel)
deriving DecidableEq, Repr

/-- `TRADER_DATUM` values used by this trader. -/
inductive TRADER_DATUM where
  | ORDERBOOK
  | MARKET_PRINT
deriving DecidableEq, Repr

/-- A `{ field, datum }` subscription entry. -/
structure SubEntry where
  field : String
  datum : TRADER_DATUM
deriving DecidableEq, Repr

/-- A widget instance (key of `subs.orderbook`): an identity plus the
instrument the widget is currently bound to (`source.instrument`, which
may be unset). -/
structure Source where
  sid : Nat
  instrument : Option Instrument
deriving DecidableEq, Repr

/-- A value of `refs.orderbook` / `refs.allTrades`:
`{ refCount, instrument }`, with `lastOrderbookData` attached later by
`onOrderbookMessage`. -/
structure InstrumentRef where
  refCount : Nat
  instrument : Instrument
  lastOrderbookData : Option Orderbook := none
deriving DecidableEq, Repr

/-- A projected order-book level written into a widget field. -/
structure ProjectedLevel where
  price : ℚ
  volume : Int
deriving DecidableEq, Repr

/-- The projected book value written into a widget field. -/
structure ProjectedBook where
  bids : List ProjectedLevel
  asks : List ProjectedLevel
deriving DecidableEq, Repr

/-- The trader state touched by the modelled operations: the
`#figis` reverse index, the order-book subscription entries, both ref
maps, and the widget fields written by routing (keyed by
(widget id, field name)). -/
structure TraderState where
  figis : List (String × Instrument)
  subsOrderbook : List (Source × List SubEntry)
  refsOrderbook : List (Nat × InstrumentRef)
  refsAllTrades : List (Nat × InstrumentRef)
  consumerFields : List ((Nat × String) × ProjectedBook)
deriving DecidableEq, Repr

/-- Observable side effects of the registry / router operations, in
program order. -/
inductive TraderEvent where
  | unaryGetOrderBook (instrumentId : String) (depth : Nat)
  | cacheWrite (instrumentId : Nat)
  | fieldWrite (sid : Nat) (field : String)
  | signalResubscribe (reconnect : Bool)
deriving DecidableEq, Repr

/-- Projection of a wire book into the value written to a widget field
(`onOrderbookMessage`, lines 270-285). -/
def projectBook (orderbook : Orderbook) : ProjectedBook :=
  { bids := (orderbook.bids.getD []).map
      (fun b => { price := toNumber b.price, volume := b.quantity }),
    asks := (orderbook.asks.getD []).map
      (fun a => { price := toNumber a.price, volume := a.quantity }) }

/-- Inner loop of `onOrderbookMessage`: write the projected book into
every field of one widget whose entry has the `ORDERBOOK` datum. -/
def writeEntries (sid : Nat) (orderbook : Orderbook) :
    TraderState × List TraderEvent → List SubEntry → TraderState × List TraderEvent
  | acc, [] => acc
  | acc, e :: rest =>
    match e.datum with
    | TRADER_DATUM.ORDERBOOK =>
      let fields' := mapSet (sid, e.field) (projectBook orderbook) acc.1.consumerFields
      writeEntries sid orderbook
        ({ acc.1 with consumerFields := fields' },
         acc.2 ++ [TraderEvent.fieldWrite sid e.field]) rest
    | TRADER_DATUM.MARKET_PRINT => writeEntries sid orderbook acc rest

/-- Outer loop of `onOrderbookMessage` over `subs.orderbook`: for each
widget bound to the message's instrument, look up the instrument ref; if
present, store the raw message as `lastOrderbookData` and then write the
projected fields. -/
def routeBook (orderbook : Orderbook) (instrument : Instrument) :
    TraderState × List TraderEvent → List (Source × List SubEntry) →
    TraderState × List TraderEvent
  | acc, [] => acc
  | acc, (src, entries) :: rest =>
    routeBook orderbook instrument
      (match src.instrument with
       | some si =>
         if si.id = instrument.id then
           match mapGet si.id acc.1.refsOrderbook with
           | some ref =>
             let refs' :=
               mapSet si.id { ref with lastOrderbookData := some orderbook }
                 acc.1.refsOrderbook
             writeEntries src.sid orderbook
               ({ acc.1 with refsOrderbook := refs' },
                acc.2 ++ [TraderEvent.cacheWrite si.id]) entries
           | none => acc
         else acc
       | none => acc) rest

/-- Source `onOrderbookMessage` (lines 258-294): guarded on both the
message and the resolved instrument being present. -/
def onOrderbookMessage (orderbook : Option Orderbook) (instrument : Option Instrument)
    (st : TraderState) : TraderState × List TraderEvent :=
  match orderbook, instrument with
  | some ob, some instr => routeBook ob instr (st, []) st.subsOrderbook
  | _, _ => (st, [])

/-- Stream dispatch for a book message (lines 178-182): the instrument is
resolved through the `#figis` index by the wire figi. -/
def handleOrderbookStreamData (orderbook : Orderbook) (st : TraderState) :
    TraderState × List TraderEvent :=
  onOrderbookMessage (some orderbook) (mapGet orderbook.figi st.figis) st

/-- Which ref map an operation addresses (`refs === this.refs.orderbook`
vs `refs === this.refs.allTrades`). -/
inductive RefKind where
  | orderbook
  | allTrades
deriving DecidableEq, Repr

/-- The ref map of a kind. -/
def refsOf (kind : RefKind) (st : TraderState) : List (Nat × InstrumentRef) :=
  match kind with
  | RefKind.orderbook => st.refsOrderbook
  | RefKind.allTrades => st.refsAllTrades

/-- Source `addFirstRef` (lines 218-241): create the ref with count 1,
index the instrument by figi, then (order-book kind only) fetch the
snapshot via the unary `getOrderBook` call at depth 50 and apply it
through `onOrderbookMessage`, and finally signal a (debounced)
resubscribe.  `snapshot` is the response of the unary call. -/
def addFirstRef (instrument : Instrument) (kind : RefKind) (snapshot : Orderbook)
    (st : TraderState) : TraderState × List TraderEvent :=
  let newRef : InstrumentRef := { refCount := 1, instrument := instrument }
  let st1 :=
    match kind with
    | RefKind.orderbook =>
      { st with refsOrderbook := mapSet instrument.id newRef st.refsOrderbook }
    | RefKind.allTrades =>
      { st with refsAllTrades := mapSet instrument.id newRef st.refsAllTrades }
  let st2 := { st1 with figis := mapSet instrument.tinkoffFigi instrument st1.figis }
  match kind with
  | RefKind.orderbook =>
    let res := onOrderbookMessage (some snapshot) (some instrument) st2
    (res.1, TraderEvent.unaryGetOrderBook instrument.tinkoffFigi 50 ::
      res.2 ++ [TraderEvent.signalResubscribe false])
  | RefKind.allTrades => (st2, [TraderEvent.signalResubscribe false])

/-- Source `removeLastRef` (lines 243-256): delete the entry from the
addressed ref map and, when both ref maps are empty afterwards, abort the
market-data stream (the returned flag).  The source body contains no
`throw`, so the embedding always returns `Except.ok`. -/
def removeLastRef (instrument : Instrument) (kind : RefKind) (st : TraderState) :
    Except String (TraderState × Bool) :=
  let st' :=
    match kind with
    | RefKind.orderbook =>
      { st with refsOrderbook := mapDelete instrument.id st.refsOrderbook }
    | RefKind.allTrades =>
      { st with refsAllTrades := mapDelete instrument.id st.refsAllTrades }
  Except.ok (st', st'.refsOrderbook.isEmpty && st'.refsAllTrades.isEmpty)

/-- `SubscriptionAction` values of the wire protocol. -/
inductive SubscriptionAction where
  | SUBSCRIPTION_ACTION_UNSPECIFIED
  | SUBSCRIPTION_ACTION_SUBSCRIBE
  | SUBSCRIPTION_ACTION_UNSUBSCRIBE
deriving DecidableEq, Repr

/-- One order-book subscription item of the outgoing request. -/
structure OrderBookInstrument where
  instrumentId : String
  depth : Nat
deriving DecidableEq, Repr

/-- One trades subscription item of the outgoing request. -/
structure TradesInstrument where
  instrumentId : String
deriving DecidableEq, Repr

/-- `subscribeOrderBookRequest` section. -/
structure SubscribeOrderBookRequest where
  subscriptionAction : SubscriptionAction
  instruments : List OrderBookInstrument
deriving DecidableEq, Repr

/-- `subscribeTradesRequest` section. -/
structure SubscribeTradesRequest where
  subscriptionAction : SubscriptionAction
  instruments : List TradesInstrument
deriving DecidableEq, Repr

/-- The unified outgoing stream request; a section is `none` when the
source never assigns it. -/
structure MarketDataServerSideStreamRequest where
  subscribeOrderBookRequest : Option SubscribeOrderBookRequest := none
  subscribeTradesRequest : Option SubscribeTradesRequest := none
deriving DecidableEq, Repr

/-- Request construction of `#resubscribeToMarketData` (lines 102-135):
a section per data kind with at least one ref, listing every referenced
instrument's figi (order-book items at fixed depth 50); empty kinds are
omitted. -/
def buildMarketDataRequest (st : TraderState) : MarketDataServerSideStreamRequest :=
  { subscribeOrderBookRequest :=
      if st.refsOrderbook.isEmpty then none
      else some
        { subscriptionAction := SubscriptionAction.SUBSCRIPTION_ACTION_SUBSCRIBE,
          instruments := st.refsOrderbook.map
            (fun p => { instrumentId := p.2.instrument.tinkoffFigi, depth := 50 }) },
    subscribeTradesRequest :=
      if st.refsAllTrades.isEmpty then none
      else some
        { subscriptionAction := SubscriptionAction.SUBSCRIPTION_ACTION_SUBSCRIBE,
          instruments := st.refsAllTrades.map
            (fun p => { instrumentId := p.2.instrument.tinkoffFigi }) } }

/-- Session lifecycle actions of one `#resubscribeToMarketData` run. -/
inductive StreamAction where
  | abortPrevious
  | openStream (request : MarketDataServerSideStreamRequest)
  | refetchSnapshot (instrumentId : String) (depth : Nat)
  | consumeDeltas
deriving DecidableEq, Repr

/-- Action trace of one `#resubscribeToMarketData(reconnect)` run
(lines 97-190): return immediately when every ref map is empty;
otherwise abort the previous session, open the stream with the built
request, on reconnect re-fetch the order-book snapshot (depth 50) of
every currently-referenced order-book instrument, then consume deltas. -/
def resubscribeToMarketData (reconnect : Bool) (st : TraderState) : List StreamAction :=
  if st.refsOrderbook.isEmpty && st.refsAllTrades.isEmpty then []
  else
    [StreamAction.abortPrevious, StreamAction.openStream (buildMarketDataRequest st)] ++
      (if reconnect then
        st.refsOrderbook.map
          (fun p => StreamAction.refetchSnapshot p.2.instrument.tinkoffFigi 50)
      else []) ++
      [StreamAction.consumeDeltas]

/-- Error handling of the streaming session (lines 192-200): an abort
error schedules nothing; any other error schedules a reconnecting
resubscribe after `Math.max(document.reconnectTimeout ?? 1000, 1000)`
milliseconds.  Returns the scheduled (delay, reconnect flag). -/
def handleStreamError (isAbort : Bool) (reconnectTimeout : Option Nat) :
    Option (Nat × Bool) :=
  if isAbort then none
  else some (Nat.max (reconnectTimeout.getD 1000) 1000, true)

/-- `TradeDirection` enum of the wire protocol (numeric in JS). -/
inductive TradeDirection where
  | TRADE_DIRECTION_UNSPECIFIED
  | TRADE_DIRECTION_BUY
  | TRADE_DIRECTION_SELL
deriving DecidableEq, Repr

/-- The numeric enum value, as it appears in JS template strings. -/
def TradeDirection.code : TradeDirection → Nat
  | TradeDirection.TRADE_DIRECTION_UNSPECIFIED => 0
  | TradeDirection.TRADE_DIRECTION_BUY => 1
  | TradeDirection.TRADE_DIRECTION_SELL => 2

/-- A decoded wire timestamp, observed through `valueOf()` (epoch
milliseconds) and `toISOString()`. -/
structure WireDate where
  epochMs : Int
  iso : String
deriving DecidableEq, Repr

/-- One trade of the `getLastTrades` response. -/
structure RawTrade where
  direction : TradeDirection
  price : Quotation
  quantity : Int
  time : WireDate
deriving DecidableEq, Repr

/-- The record `allTrades` returns per trade. -/
structure TradeRecord where
  orderId : String
  side : String
  time : String
  timestamp : Int
  symbol : String
  price : ℚ
  volume : Int
deriving DecidableEq, Repr

/-- Projection of one raw trade (lines 315-333, identical to the
router's trade projection in `onTradeMessage`). -/
def projectTrade (instrument : Instrument) (trade : RawTrade) : TradeRecord :=
  let timestamp := trade.time.epochMs
  let price := toNumber trade.price
  let symbol := instrument.symbol
  let direction := trade.direction.code
  let quantity := trade.quantity
  { orderId := toString symbol ++ "|" ++ toString direction ++ "|" ++ toString price ++
      "|" ++ toString quantity ++ "|" ++ toString timestamp,
    side :=
      if trade.direction = TradeDirection.TRADE_DIRECTION_BUY then "buy"
      else if trade.direction = TradeDirection.TRADE_DIRECTION_SELL then "sell"
      else "",
    time := trade.time.iso,
    timestamp := timestamp,
    symbol := symbol,
    price := price,
    volume := quantity }

/-- JS `Array.prototype.slice(-d)`: the start index is
`max(length - d, 0)`, except that `-0 === 0`, so `d = 0` slices from the
beginning and returns the whole array. -/
def sliceLastJs {α : Type} (l : List α) (d : Nat) : List α :=
  if d = 0 then l else l.drop (l.length - d)

/-- Source `allTrades` (lines 296-337): with a present instrument, take
the last `depth` trades of the unary `getLastTrades` response (`trades`,
ordered oldest first by the API), reverse them to most-recent-first and
project each; with an absent instrument return `[]`. -/
def allTrades (instrument : Option Instrument) (trades : List RawTrade) (depth : Nat) :
    List TradeRecord :=
  match instrument with
  | some i => ((sliceLastJs trades depth).reverse).map (projectTrade i)
  | none => []

/-! Concrete sample data used by witnesses and counterexamples. -/

/-- Sample instrument. -/
def instrA : Instrument := { id := 1, tinkoffFigi := "BBG000000001", symbol := "AAA" }

/-- Second sample instrument. -/
def instrB : Instrument := { id := 2, tinkoffFigi := "BBG000000002", symbol := "BBB" }

/-- Sample quotation (100.5). -/
def quotA : Quotation := { units := 100, nano := 500000000 }

/-- Sample book message for `instrA`. -/
def bookA : Orderbook :=
  { figi := "BBG000000001",
    bids := some [{ price := quotA, quantity := 10 }],
    asks := some [] }

/-- Ref for `instrA` without a cached snapshot. -/
def refA : InstrumentRef := { refCount := 1, instrument := instrA }

/-- Ref for `instrB` without a cached snapshot. -/
def refB : InstrumentRef := { refCount := 1, instrument := instrB }

/-- Widget bound to `instrA`. -/
def srcA : Source := { sid := 5, instrument := some instrA }

/-- Order-book subscription entry writing field "orderbook". -/
def entryA : SubEntry := { field := "orderbook", datum := TRADER_DATUM.ORDERBOOK }

/-- State with one order-book ref and one subscribed widget for
`instrA`. -/
def stA : TraderState :=
  { figis := [(instrA.tinkoffFigi, instrA)],
    subsOrderbook := [(srcA, [entryA])],
    refsOrderbook := [(instrA.id, refA)],
    refsAllTrades := [],
    consumerFields := [] }

/-- State with one order-book ref and no subscription entries. -/
def stW1 : TraderState :=
  { figis := [(instrA.tinkoffFigi, instrA)],
    subsOrderbook := [],
    refsOrderbook := [(instrA.id, refA)],
    refsAllTrades := [],
    consumerFields := [] }

/-- Completely empty trader state. -/
def stEmpty : TraderState :=
  { figis := [], subsOrderbook := [], refsOrderbook := [],
    refsAllTrades := [], consumerFields := [] }

/-- State with only a trades ref, for `instrB`. -/
def stC3 : TraderState :=
  { figis := [], subsOrderbook := [], refsOrderbook := [],
    refsAllTrades := [(instrB.id, refB)], consumerFields := [] }

/-- Sample trade fixture (time in ascending order across tradeFix). -/
def tradeFix1 : RawTrade :=
  { direction := TradeDirection.TRADE_DIRECTION_BUY,
    price := { units := 10, nano := 0 },
    quantity := 1,
    time := { epochMs := 1000, iso := "1970-01-01T00:00:01.000Z" } }

/-- Second sample trade. -/
def tradeFix2 : RawTrade :=
  { direction := TradeDirection.TRADE_DIRECTION_SELL,
    price := { units := 11, nano := 0 },
    quantity := 2,
    time := { epochMs := 2000, iso := "1970-01-01T00:00:02.000Z" } }

/-- Third sample trade. -/
def tradeFix3 : RawTrade :=
  { direction := TradeDirection.TRADE_DIRECTION_BUY,
    price := { units := 12, nano := 0 },
    quantity := 3,
    time := { epochMs := 3000, iso := "1970-01-01T00:00:03.000Z" } }

/-- Fourth sample trade. -/
def tradeFix4 : RawTrade :=
  { direction := TradeDirection.TRADE_DIRECTION_UNSPECIFIED,
    price := { units := 13, nano := 0 },
    quantity := 4,
    time := { epochMs := 4000, iso := "1970-01-01T00:00:04.000Z" } }

/-- Fifth sample trade. -/
def tradeFix5 : RawTrade :=
  { direction := TradeDirection.TRADE_DIRECTION_SELL,
    price := { units := 14, nano := 0 },
    quantity := 5,
    time := { epochMs := 5000, iso := "1970-01-01T00:00:05.000Z" } }

/-- Five-trade fixture ordered oldest to newest. -/
def tradesFix : List RawTrade := [tradeFix1, tradeFix2, tradeFix3, tradeFix4, tradeFix5]

/-- State with one ref of each kind. -/
def stBoth : TraderState :=
  { figis := [(instrA.tinkoffFigi, instrA), (instrB.tinkoffFigi, instrB)],
    subsOrderbook := [],
    refsOrderbook := [(instrA.id, refA)],
    refsAllTrades := [(instrB.id, refB)],
    consumerFields := [] }

/-- `stW1` after removing the order-book ref of `instrA`. -/
def stW1del : TraderState :=
  { figis := [(instrA.tinkoffFigi, instrA)],
    subsOrderbook := [],
    refsOrderbook := [],
    refsAllTrades := [],
    consumerFields := [] }

/-- State with a subscribed widget for `instrA` but no refs yet. -/
def stNoRef : TraderState :=
  { figis := [],
    subsOrderbook := [(srcA, [entryA])],
    refsOrderbook := [],
    refsAllTrades := [],
    consumerFields := [] }

/-- Event lists in which every `fieldWrite` is preceded by a
`cacheWrite` for the given instrument id. -/
def blockOk (iid : Nat) (l : List TraderEvent) : Prop :=
  ∀ (j : Nat) (sid : Nat) (f : String),
    l[j]? = some (TraderEvent.fieldWrite sid f) →
    ∃ i : Nat, i < j ∧ l[i]? = some (TraderEvent.cacheWrite iid)

/-! Helper lemmas about the map model. -/

theorem mapGet_mapSet {α β : Type} [DecidableEq α] (k k' : α) (v : β) (l : List (α × β)) :
    mapGet k' (mapSet k v l) = if k' = k then some v else mapGet k' l := by
  induction l with
  | nil =>
    by_cases h : k' = k <;> simp [mapSet, mapGet, h]
  | cons p rest ih =>
    obtain ⟨a, b⟩ := p
    by_cases hka : k = a
    · subst hka
      by_cases h : k' = k <;> simp [mapSet, mapGet, h]
    · by_cases h : k' = a
      · subst h
        have hne : ¬k' = k := fun hc => hka (hc ▸ rfl)
        simp [mapSet, mapGet, hka, hne]
      · simp [mapSet, mapGet, hka, h, ih]

theorem mapDelete_of_get_none {α β : Type} [DecidableEq α] (k : α) (l : List (α × β))
    (h : mapGet k l = none) : mapDelete k l = l := by
  induction l with
  | nil => rfl
  | cons p rest ih =>
    obtain ⟨a, b⟩ := p
    by_cases hka : k = a
    · simp [mapGet, hka] at h
    · simp [mapGet, hka] at h
      simp [mapDelete, hka, ih h]

/-! Quotation conversion lemmas (claims C6 and C7). -/

theorem roundtrip_nonneg (a : ℚ) :
    |((⌊a⌋ : ℚ) + ((round ((a - (⌊a⌋ : ℚ)) * 1000000000) : ℤ) : ℚ) / 1000000000) - a|
      ≤ 1 / 1000000000 := by
  set y : ℚ := (a - (⌊a⌋ : ℚ)) * 1000000000 with hy
  have h1 : |((round y : ℤ) : ℚ) - y| ≤ 1 / 2 := by
    rw [abs_sub_comm]; exact abs_sub_round y
  have h2 : (⌊a⌋ : ℚ) + ((round y : ℤ) : ℚ) / 1000000000 - a
      = (((round y : ℤ) : ℚ) - y) / 1000000000 := by
    rw [hy]; ring
  rw [h2, abs_div, abs_of_pos (by norm_num : (0 : ℚ) < 1000000000)]
  calc |((round y : ℤ) : ℚ) - y| / 1000000000
      ≤ (1 / 2) / 1000000000 := by linarith
    _ ≤ 1 / 1000000000 := by norm_num

/-- C6: for every number x, the quotation round trip
`toNumber (toQuotation x)` is within 1e-9 of x (for negative values and
zero included); modelled with exact rational arithmetic. -/
theorem C6_quotation_roundtrip (x : ℚ) :
    |toNumber (toQuotation x) - x| ≤ 1 / 1000000000 := by
  unfold toNumber toQuotation
  by_cases h : x < 0
  · simp only [if_pos h]
    have hx : |x| = -x := abs_of_neg h
    have hkey := roundtrip_nonneg (-x)
    have hrw : (((-1 : ℤ) * ⌊|x|⌋ : ℤ) : ℚ) + (((-1 : ℤ) * round ((|x| - (⌊|x|⌋ : ℚ)) * 1000000000) : ℤ) : ℚ) / 1000000000 - x
        = -(((⌊-x⌋ : ℚ) + ((round ((-x - (⌊-x⌋ : ℚ)) * 1000000000) : ℤ) : ℚ) / 1000000000) - -x) := by
      rw [hx]; push_cast; ring
    rw [hrw, abs_neg]
    exact hkey
  · simp only [if_neg h]
    have hx : |x| = x := abs_of_nonneg (not_lt.mp h)
    have hkey := roundtrip_nonneg x
    have hrw : (((1 : ℤ) * ⌊|x|⌋ : ℤ) : ℚ) + (((1 : ℤ) * round ((|x| - (⌊|x|⌋ : ℚ)) * 1000000000) : ℤ) : ℚ) / 1000000000 - x
        = ((⌊x⌋ : ℚ) + ((round ((x - (⌊x⌋ : ℚ)) * 1000000000) : ℤ) : ℚ) / 1000000000) - x := by
      rw [hx]; push_cast; ring
    rw [hrw]
    exact hkey

/-- C7 (counterexample): at x = 0.9999999999 the produced nano part is
exactly 1e9, so its magnitude is not in the claimed half-open interval
[0, 1e9). -/
theorem C7_counterexample :
    (toQuotation ((9999999999 : ℚ) / 10000000000)).nano = 1000000000 ∧
    ¬ |(toQuotation ((9999999999 : ℚ) / 10000000000)).nano| < 1000000000 := by
  have h1 : ¬((9999999999 : ℚ) / 10000000000 < 0) := by norm_num
  have h2 : |(9999999999 : ℚ) / 10000000000| = (9999999999 : ℚ) / 10000000000 :=
    abs_of_nonneg (by norm_num)
  have h3 : ⌊(9999999999 : ℚ) / 10000000000⌋ = 0 := by norm_num
  have hval : (toQuotation ((9999999999 : ℚ) / 10000000000)).nano = 1000000000 := by
    simp only [toQuotation, h2, h3, if_neg h1]
    rw [round_eq]
    norm_num
  refine ⟨hval, ?_⟩
  rw [hval]
  decide

/-- C7 (amended): for every number x, the units and nano parts of
`toQuotation x` carry the same sign, and the magnitude of nano lies in
the closed interval [0, 1e9]; the bound 1e9 is attained (see the
counterexample), so the claimed half-open interval [0, 1e9) is corrected
to the closed one. -/
theorem C7_quotation_invariant (x : ℚ) :
    ((0 ≤ (toQuotation x).units ∧ 0 ≤ (toQuotation x).nano) ∨
      ((toQuotation x).units ≤ 0 ∧ (toQuotation x).nano ≤ 0)) ∧
    |(toQuotation x).nano| ≤ 1000000000 := by
  have ha : (0 : ℚ) ≤ |x| := abs_nonneg x
  have hu : (0 : ℤ) ≤ ⌊|x|⌋ := Int.floor_nonneg.mpr ha
  have hf0 : (0 : ℚ) ≤ |x| - (⌊|x|⌋ : ℚ) := sub_nonneg.mpr (Int.floor_le _)
  have hf1 : |x| - (⌊|x|⌋ : ℚ) < 1 := by
    have := Int.lt_floor_add_one |x|
    linarith
  have hn0 : (0 : ℤ) ≤ round ((|x| - (⌊|x|⌋ : ℚ)) * 1000000000) := by
    rw [round_eq]
    apply Int.floor_nonneg.mpr
    have : (0 : ℚ) ≤ (|x| - (⌊|x|⌋ : ℚ)) * 1000000000 := by positivity
    linarith
  have hn1 : round ((|x| - (⌊|x|⌋ : ℚ)) * 1000000000) ≤ 1000000000 := by
    rw [round_eq]
    have hlt : (|x| - (⌊|x|⌋ : ℚ)) * 1000000000 + 1 / 2 < 1000000001 := by
      nlinarith
    have := Int.floor_lt.mpr (by exact_mod_cast hlt :
      (|x| - (⌊|x|⌋ : ℚ)) * 1000000000 + 1 / 2 < ((1000000001 : ℤ) : ℚ))
    omega
  unfold toQuotation
  by_cases h : x < 0
  · simp only [if_pos h]
    refine ⟨Or.inr ⟨by omega, by omega⟩, ?_⟩
    rw [abs_of_nonpos (by omega : (-1 : ℤ) * round ((|x| - (⌊|x|⌋ : ℚ)) * 1000000000) ≤ 0)]
    omega
  · simp only [if_neg h]
    refine ⟨Or.inl ⟨by omega, by omega⟩, ?_⟩
    rw [abs_of_nonneg (by omega : (0 : ℤ) ≤ 1 * round ((|x| - (⌊|x|⌋ : ℚ)) * 1000000000))]
    omega

/-! List helpers shared by the stream-controller claims. -/

theorem isEmpty_false_of_ne_nil {α : Type} {l : List α} (h : l ≠ []) :
    l.isEmpty = false := by
  cases l with
  | nil => exact absurd rfl h
  | cons a l => rfl

theorem isEmpty_and_false {α β : Type} {l1 : List α} {l2 : List β}
    (h : l1 ≠ [] ∨ l2 ≠ []) : (l1.isEmpty && l2.isEmpty) = false := by
  cases h with
  | inl h => simp [isEmpty_false_of_ne_nil h]
  | inr h => simp [isEmpty_false_of_ne_nil h]

theorem sliceLastJs_reverse {α : Type} (l : List α) (d : Nat) (hd : d ≠ 0) :
    (sliceLastJs l d).reverse = l.reverse.take d := by
  unfold sliceLastJs
  rw [if_neg hd]
  have h := List.rtake_eq_reverse_take_reverse (l := l) (n := d)
  rw [show l.drop (l.length - d) = l.rtake d from rfl, h, List.reverse_reverse]

/-- C8 (counterexample): `allTrades` does not return "exactly `depth`
most recent trades" for every depth: JS `slice(-0)` returns the whole
array, so depth 0 on a one-trade fixture yields one trade instead of
zero, and a depth exceeding the list length yields fewer than `depth`
trades. -/
theorem C8_counterexample :
    allTrades (some instrA) [tradeFix1] 0 ≠ [] ∧
    (allTrades (some instrA) [tradeFix1] 3).length ≠ 3 := by
  constructor
  · simp [allTrades, sliceLastJs]
  · simp [allTrades, sliceLastJs]

/-- C8 (amended): for every positive depth, `allTrades` with a present
instrument returns the `min depth trades.length` most recent trades of
the oldest-first response, reordered most-recent-first and projected by
`projectTrade` (derived identifier, normalized side, ISO time, epoch
milliseconds, price, volume); with an absent instrument it returns the
empty sequence. -/
theorem C8_fetchRecentTrades (instrument : Instrument) (trades : List RawTrade)
    (depth : Nat) (h : 0 < depth) :
    allTrades (some instrument) trades depth
      = (trades.reverse.take depth).map (projectTrade instrument) ∧
    (allTrades (some instrument) trades depth).length = min depth trades.length ∧
    allTrades none trades depth = [] := by
  have hd : depth ≠ 0 := Nat.pos_iff_ne_zero.mp h
  refine ⟨?_, ?_, rfl⟩
  · show ((sliceLastJs trades depth).reverse).map (projectTrade instrument) = _
    rw [sliceLastJs_reverse trades depth hd]
  · show (((sliceLastJs trades depth).reverse).map (projectTrade instrument)).length = _
    rw [sliceLastJs_reverse trades depth hd, List.length_map, List.length_take,
      List.length_reverse]

/-- C8 (witness): the spec fixture, five trades at depth 3. -/
theorem C8_witness :
    0 < 3 ∧
    (allTrades (some instrA) tradesFix 3
        = (tradesFix.reverse.take 3).map (projectTrade instrA) ∧
      (allTrades (some instrA) tradesFix 3).length = min 3 tradesFix.length ∧
      allTrades none tradesFix 3 = []) :=
  ⟨by decide, C8_fetchRecentTrades instrA tradesFix 3 (by decide)⟩

/-- C1: a session that ends with a non-cancellation error schedules a
reconnect whose delay is at least the configured timeout and at least
the 1000 ms floor; the scheduled run (reconnect flag set), with at least
one instrument still referenced, reopens the stream and re-fetches the
snapshot of every referenced order-book instrument strictly before
resuming delta consumption; an abort error schedules nothing. -/
theorem C1_reconnect_on_failure (t : Option Nat) (st : TraderState)
    (h : st.refsOrderbook ≠ [] ∨ st.refsAllTrades ≠ []) :
    (∃ d, handleStreamError false t = some (d, true) ∧ 1000 ≤ d ∧ t.getD 1000 ≤ d) ∧
    handleStreamError true t = none ∧
    (∃ pre, resubscribeToMarketData true st = pre ++ [StreamAction.consumeDeltas] ∧
      StreamAction.openStream (buildMarketDataRequest st) ∈ pre ∧
      ∀ p ∈ st.refsOrderbook,
        StreamAction.refetchSnapshot p.2.instrument.tinkoffFigi 50 ∈ pre) := by
  refine ⟨⟨Nat.max (t.getD 1000) 1000, rfl, Nat.le_max_right _ _, Nat.le_max_left _ _⟩,
    rfl, ?_⟩
  have hguard := isEmpty_and_false h
  refine ⟨[StreamAction.abortPrevious,
      StreamAction.openStream (buildMarketDataRequest st)] ++
      st.refsOrderbook.map
        (fun p => StreamAction.refetchSnapshot p.2.instrument.tinkoffFigi 50),
    ?_, ?_, ?_⟩
  · unfold resubscribeToMarketData
    simp [hguard]
  · simp
  · intro p hp
    have hm : StreamAction.refetchSnapshot p.2.instrument.tinkoffFigi 50
        ∈ st.refsOrderbook.map
          (fun p => StreamAction.refetchSnapshot p.2.instrument.tinkoffFigi 50) :=
      List.mem_map_of_mem _ hp
    exact List.mem_append.mpr (Or.inr hm)

/-- C1 (witness): one referenced order-book instrument, configured
timeout 500 ms. -/
theorem C1_witness :
    (stW1.refsOrderbook ≠ [] ∨ stW1.refsAllTrades ≠ []) ∧
    ((∃ d, handleStreamError false (some 500) = some (d, true) ∧ 1000 ≤ d ∧
        (some 500).getD 1000 ≤ d) ∧
      handleStreamError true (some 500) = none ∧
      (∃ pre, resubscribeToMarketData true stW1 = pre ++ [StreamAction.consumeDeltas] ∧
        StreamAction.openStream (buildMarketDataRequest stW1) ∈ pre ∧
        ∀ p ∈ stW1.refsOrderbook,
          StreamAction.refetchSnapshot p.2.instrument.tinkoffFigi 50 ∈ pre)) :=
  ⟨Or.inl (by decide), C1_reconnect_on_failure (some 500) stW1 (Or.inl (by decide))⟩

/-- C2: removing a ref that leaves every ref map empty reports the
stream abort, and a resubscribe invoked while every ref map is empty
opens no stream. -/
theorem C2_empty_refs_idle (instrument : Instrument) (kind : RefKind)
    (st : TraderState) (rc : Bool) :
    (∀ res, removeLastRef instrument kind st = Except.ok res →
      res.1.refsOrderbook = [] → res.1.refsAllTrades = [] → res.2 = true) ∧
    (st.refsOrderbook = [] → st.refsAllTrades = [] →
      ∀ q, StreamAction.openStream q ∉ resubscribeToMarketData rc st) := by
  constructor
  · intro res hres h1 h2
    cases kind with
    | orderbook =>
      cases hres
      simp only at h1 h2 ⊢
      rw [h1, h2]
      rfl
    | allTrades =>
      cases hres
      simp only at h1 h2 ⊢
      rw [h1, h2]
      rfl
  · intro h1 h2 q
    unfold resubscribeToMarketData
    simp [h1, h2]

/-- C2 (witness): removing the only ref reports the abort; the empty
state opens no stream. -/
theorem C2_witness :
    (removeLastRef instrA RefKind.orderbook stW1 = Except.ok (stW1del, true) ∧
      stW1del.refsOrderbook = [] ∧ stW1del.refsAllTrades = [] ∧
      (stW1del, true).2 = true) ∧
    (stEmpty.refsOrderbook = [] ∧ stEmpty.refsAllTrades = [] ∧
      ∀ q, StreamAction.openStream q ∉ resubscribeToMarketData false stEmpty) := by
  refine ⟨⟨rfl, rfl, rfl, ?_⟩, rfl, rfl, ?_⟩
  · exact (C2_empty_refs_idle instrA RefKind.orderbook stW1 false).1 (stW1del, true)
      rfl rfl rfl
  · exact (C2_empty_refs_idle instrA RefKind.orderbook stEmpty false).2 rfl rfl

/-- C3 (counterexample): removing a ref for an instrument with no
existing entry (here `instrA` against the order-book map of a state that
only holds a trades ref) succeeds silently with the state unchanged; no
error of any kind is signalled. -/
theorem C3_counterexample :
    removeLastRef instrA RefKind.orderbook stC3 = Except.ok (stC3, false) ∧
    ∀ msg, removeLastRef instrA RefKind.orderbook stC3 ≠ Except.error msg := by
  refine ⟨rfl, ?_⟩
  intro msg hmsg
  rw [show removeLastRef instrA RefKind.orderbook stC3 = Except.ok (stC3, false)
    from rfl] at hmsg
  exact Except.noConfusion hmsg

/-- C3 (amended): a ref-removal on a (kind, instrument) with no existing
ref is silently ignored: it succeeds, leaves the state unchanged, and
only reports the abort flag that the (unchanged) emptiness of both ref
maps dictates. -/
theorem C3_remove_absent_silent (instrument : Instrument) (kind : RefKind)
    (st : TraderState) (h : mapGet instrument.id (refsOf kind st) = none) :
    removeLastRef instrument kind st
      = Except.ok (st, st.refsOrderbook.isEmpty && st.refsAllTrades.isEmpty) := by
  cases kind with
  | orderbook =>
    have hd : mapDelete instrument.id st.refsOrderbook = st.refsOrderbook :=
      mapDelete_of_get_none _ _ h
    simp only [removeLastRef, hd]
  | allTrades =>
    have hd : mapDelete instrument.id st.refsAllTrades = st.refsAllTrades :=
      mapDelete_of_get_none _ _ h
    simp only [removeLastRef, hd]

/-- C3 (witness): the counterexample state, through the amended
statement. -/
theorem C3_witness :
    mapGet instrA.id (refsOf RefKind.orderbook stC3) = none ∧
    removeLastRef instrA RefKind.orderbook stC3
      = Except.ok (stC3, stC3.refsOrderbook.isEmpty && stC3.refsAllTrades.isEmpty) :=
  ⟨rfl, C3_remove_absent_silent instrA RefKind.orderbook stC3 rfl⟩

/-- C5: with at least one active ref, the opened stream uses the built
request; per data kind with at least one ref the request carries a
subscribe section listing every referenced instrument's figi (order-book
entries at depth 50), and a kind with no refs contributes no section. -/
theorem C5_request_content (st : TraderState)
    (h : st.refsOrderbook ≠ [] ∨ st.refsAllTrades ≠ []) (rc : Bool) :
    StreamAction.openStream (buildMarketDataRequest st) ∈ resubscribeToMarketData rc st ∧
    (st.refsOrderbook = [] → (buildMarketDataRequest st).subscribeOrderBookRequest = none) ∧
    (st.refsOrderbook ≠ [] → ∃ r,
      (buildMarketDataRequest st).subscribeOrderBookRequest = some r ∧
      r.subscriptionAction = SubscriptionAction.SUBSCRIPTION_ACTION_SUBSCRIBE ∧
      r.instruments = st.refsOrderbook.map
        (fun p => { instrumentId := p.2.instrument.tinkoffFigi, depth := 50 }) ∧
      ∀ p ∈ st.refsOrderbook,
        ({ instrumentId := p.2.instrument.tinkoffFigi, depth := 50 } : OrderBookInstrument)
          ∈ r.instruments) ∧
    (st.refsAllTrades = [] → (buildMarketDataRequest st).subscribeTradesRequest = none) ∧
    (st.refsAllTrades ≠ [] → ∃ r,
      (buildMarketDataRequest st).subscribeTradesRequest = some r ∧
      r.subscriptionAction = SubscriptionAction.SUBSCRIPTION_ACTION_SUBSCRIBE ∧
      r.instruments = st.refsAllTrades.map
        (fun p => { instrumentId := p.2.instrument.tinkoffFigi }) ∧
      ∀ p ∈ st.refsAllTrades,
        ({ instrumentId := p.2.instrument.tinkoffFigi } : TradesInstrument)
          ∈ r.instruments) := by
  refine ⟨?_, ?_, ?_, ?_, ?_⟩
  · unfold resubscribeToMarketData
    simp [isEmpty_and_false h]
  · intro h0
    unfold buildMarketDataRequest
    simp [h0]
  · intro h0
    unfold buildMarketDataRequest
    simp only [isEmpty_false_of_ne_nil h0, Bool.false_eq_true, if_false]
    refine ⟨_, rfl, rfl, rfl, ?_⟩
    intro p hp
    exact List.mem_map_of_mem _ hp
  · intro h0
    unfold buildMarketDataRequest
    simp [h0]
  · intro h0
    unfold buildMarketDataRequest
    simp only [isEmpty_false_of_ne_nil h0, Bool.false_eq_true, if_false]
    refine ⟨_, rfl, rfl, rfl, ?_⟩
    intro p hp
    exact List.mem_map_of_mem _ hp

/-- C5 (witness): one ref of each kind. -/
theorem C5_witness :
    (stBoth.refsOrderbook ≠ [] ∨ stBoth.refsAllTrades ≠ []) ∧
    (StreamAction.openStream (buildMarketDataRequest stBoth)
        ∈ resubscribeToMarketData false stBoth ∧
      (stBoth.refsOrderbook = [] →
        (buildMarketDataRequest stBoth).subscribeOrderBookRequest = none) ∧
      (stBoth.refsOrderbook ≠ [] → ∃ r,
        (buildMarketDataRequest stBoth).subscribeOrderBookRequest = some r ∧
        r.subscriptionAction = SubscriptionAction.SUBSCRIPTION_ACTION_SUBSCRIBE ∧
        r.instruments = stBoth.refsOrderbook.map
          (fun p => { instrumentId := p.2.instrument.tinkoffFigi, depth := 50 }) ∧
        ∀ p ∈ stBoth.refsOrderbook,
          ({ instrumentId := p.2.instrument.tinkoffFigi, depth := 50 } :
            OrderBookInstrument) ∈ r.instruments) ∧
      (stBoth.refsAllTrades = [] →
        (buildMarketDataRequest stBoth).subscribeTradesRequest = none) ∧
      (stBoth.refsAllTrades ≠ [] → ∃ r,
        (buildMarketDataRequest stBoth).subscribeTradesRequest = some r ∧
        r.subscriptionAction = SubscriptionAction.SUBSCRIPTION_ACTION_SUBSCRIBE ∧
        r.instruments = stBoth.refsAllTrades.map
          (fun p => { instrumentId := p.2.instrument.tinkoffFigi }) ∧
        ∀ p ∈ stBoth.refsAllTrades,
          ({ instrumentId := p.2.instrument.tinkoffFigi } : TradesInstrument)
            ∈ r.instruments)) :=
  ⟨Or.inl (by decide), C5_request_content stBoth (Or.inl (by decide)) false⟩

/-! Lemmas about the inner routing loop `writeEntries`. -/

theorem writeEntries_frame (sid : Nat) (ob : Orderbook) (entries : List SubEntry) :
    ∀ acc : TraderState × List TraderEvent,
      (writeEntries sid ob acc entries).1.figis = acc.1.figis ∧
      (writeEntries sid ob acc entries).1.subsOrderbook = acc.1.subsOrderbook ∧
      (writeEntries sid ob acc entries).1.refsOrderbook = acc.1.refsOrderbook ∧
      (writeEntries sid ob acc entries).1.refsAllTrades = acc.1.refsAllTrades := by
  induction entries with
  | nil => intro acc; exact ⟨rfl, rfl, rfl, rfl⟩
  | cons e rest ih =>
    intro acc
    cases hd : e.datum with
    | ORDERBOOK =>
      simp only [writeEntries, hd]
      exact ih _
    | MARKET_PRINT =>
      simp only [writeEntries, hd]
      exact ih acc

theorem writeEntries_events (sid : Nat) (ob : Orderbook) (entries : List SubEntry) :
    ∀ acc : TraderState × List TraderEvent,
      ∃ ws, (writeEntries sid ob acc entries).2 = acc.2 ++ ws ∧
        ∀ x ∈ ws, ∃ f, x = TraderEvent.fieldWrite sid f := by
  induction entries with
  | nil => intro acc; exact ⟨[], (List.append_nil _).symm, by simp⟩
  | cons e rest ih =>
    intro acc
    cases hd : e.datum with
    | ORDERBOOK =>
      obtain ⟨ws, hws, hall⟩ := ih ({ acc.1 with consumerFields := mapSet (sid, e.field) (projectBook ob) acc.1.consumerFields }, acc.2 ++ [TraderEvent.fieldWrite sid e.field])
      refine ⟨TraderEvent.fieldWrite sid e.field :: ws, ?_, ?_⟩
      · simp only [writeEntries, hd]
        rw [hws]
        simp
      · intro x hx
        cases List.mem_cons.mp hx with
        | inl h => exact ⟨e.field, h⟩
        | inr h => exact hall x h
    | MARKET_PRINT =>
      simp only [writeEntries, hd]
      exact ih acc

theorem writeEntries_fields_stable (sid : Nat) (ob : Orderbook) (entries : List SubEntry) :
    ∀ (acc : TraderState × List TraderEvent) (k : Nat × String),
      mapGet k acc.1.consumerFields = some (projectBook ob) →
      mapGet k (writeEntries sid ob acc entries).1.consumerFields
        = some (projectBook ob) := by
  induction entries with
  | nil => intro acc k hk; exact hk
  | cons e rest ih =>
    intro acc k hk
    cases hd : e.datum with
    | ORDERBOOK =>
      simp only [writeEntries, hd]
      apply ih
      show mapGet k (mapSet (sid, e.field) (projectBook ob) acc.1.consumerFields) = _
      rw [mapGet_mapSet]
      by_cases hkk : k = (sid, e.field)
      · simp [hkk]
      · simp [hkk, hk]
    | MARKET_PRINT =>
      simp only [writeEntries, hd]
      exact ih acc k hk

theorem writeEntries_field_written (sid : Nat) (ob : Orderbook) (entries : List SubEntry) :
    ∀ (acc : TraderState × List TraderEvent) (e : SubEntry), e ∈ entries →
      e.datum = TRADER_DATUM.ORDERBOOK →
      mapGet (sid, e.field) (writeEntries sid ob acc entries).1.consumerFields
        = some (projectBook ob) := by
  induction entries with
  | nil => intro acc e he _; exact absurd he (List.not_mem_nil e)
  | cons e' rest ih =>
    intro acc e he hdat
    rcases List.mem_cons.mp he with heq | hmem
    · subst heq
      simp only [writeEntries, hdat]
      apply writeEntries_fields_stable
      show mapGet (sid, e.field) (mapSet (sid, e.field) (projectBook ob)
        acc.1.consumerFields) = _
      rw [mapGet_mapSet, if_pos rfl]
    · cases hd : e'.datum with
      | ORDERBOOK =>
        simp only [writeEntries, hd]
        exact ih _ e hmem hdat
      | MARKET_PRINT =>
        simp only [writeEntries, hd]
        exact ih acc e hmem hdat

theorem writeEntries_fields_change (sid : Nat) (ob : Orderbook) (entries : List SubEntry) :
    ∀ (acc : TraderState × List TraderEvent) (k : Nat × String),
      mapGet k (writeEntries sid ob acc entries).1.consumerFields
        ≠ mapGet k acc.1.consumerFields →
      ∃ e ∈ entries, e.datum = TRADER_DATUM.ORDERBOOK ∧ (sid, e.field) = k := by
  induction entries with
  | nil => intro acc k hk; exact absurd rfl hk
  | cons e rest ih =>
    intro acc k hk
    cases hd : e.datum with
    | ORDERBOOK =>
      simp only [writeEntries, hd] at hk
      by_cases hkk : k = (sid, e.field)
      · exact ⟨e, List.mem_cons_self e rest, hd, hkk.symm⟩
      · have hstep : mapGet k (mapSet (sid, e.field) (projectBook ob)
            acc.1.consumerFields) = mapGet k acc.1.consumerFields := by
          rw [mapGet_mapSet, if_neg hkk]
        rw [show mapGet k acc.1.consumerFields
            = mapGet k (mapSet (sid, e.field) (projectBook ob) acc.1.consumerFields)
          from hstep.symm] at hk
        obtain ⟨e2, he2, hd2, hk2⟩ := ih _ k hk
        exact ⟨e2, List.mem_cons_of_mem _ he2, hd2, hk2⟩
    | MARKET_PRINT =>
      simp only [writeEntries, hd] at hk
      obtain ⟨e2, he2, hd2, hk2⟩ := ih acc k hk
      exact ⟨e2, List.mem_cons_of_mem _ he2, hd2, hk2⟩

/-! Lemmas about the outer routing loop `routeBook`. -/

theorem routeBook_cons (ob : Orderbook) (instr : Instrument) (src : Source)
    (entries : List SubEntry) (rest : List (Source × List SubEntry))
    (acc : TraderState × List TraderEvent) :
    routeBook ob instr acc ((src, entries) :: rest)
      = routeBook ob instr (routeBook ob instr acc [(src, entries)]) rest := by
  simp only [routeBook]

theorem routeBook_step (ob : Orderbook) (instr : Instrument) (src : Source)
    (entries : List SubEntry) (acc : TraderState × List TraderEvent) :
    (routeBook ob instr acc [(src, entries)] = acc ∧
      (src.instrument = none ∨
        (∃ si, src.instrument = some si ∧ ¬si.id = instr.id) ∨
        mapGet instr.id acc.1.refsOrderbook = none)) ∨
    ∃ si ref, src.instrument = some si ∧ si.id = instr.id ∧
      mapGet instr.id acc.1.refsOrderbook = some ref ∧
      routeBook ob instr acc [(src, entries)]
        = writeEntries src.sid ob ({ acc.1 with refsOrderbook := mapSet instr.id { ref with lastOrderbookData := some ob } acc.1.refsOrderbook }, acc.2 ++ [TraderEvent.cacheWrite instr.id]) entries := by
  rcases hsi : src.instrument with _ | si
  · left
    refine ⟨?_, Or.inl rfl⟩
    simp only [routeBook, hsi]
  · by_cases hid : si.id = instr.id
    · rcases href : mapGet si.id acc.1.refsOrderbook with _ | ref
      · left
        rw [hid] at href
        refine ⟨?_, Or.inr (Or.inr href)⟩
        rw [← hid] at href
        simp only [routeBook, hsi, if_pos hid, href]
      · right
        rw [hid] at href
        refine ⟨si, ref, rfl, hid, href, ?_⟩
        simp only [routeBook, hsi, hid, href, eq_self_iff_true, if_true]
    · left
      refine ⟨?_, Or.inr (Or.inl ⟨si, rfl, hid⟩)⟩
      simp only [routeBook, hsi, if_neg hid]

theorem routeBook_step_reason_absurd (src : Source) (si : Instrument) (instr : Instrument)
    (refs : List (Nat × InstrumentRef)) (r : InstrumentRef)
    (hsi : src.instrument = some si) (hid : si.id = instr.id)
    (hr : mapGet instr.id refs = some r)
    (hwhy : src.instrument = none ∨
      (∃ si2, src.instrument = some si2 ∧ ¬si2.id = instr.id) ∨
      mapGet instr.id refs = none) : False := by
  rcases hwhy with h | ⟨si2, hsi2, hne⟩ | h
  · rw [hsi] at h; exact Option.noConfusion h
  · rw [hsi] at hsi2
    injection hsi2 with h2
    exact hne (h2 ▸ hid)
  · rw [h] at hr; exact Option.noConfusion hr

theorem writeEntries_refs_after (sid : Nat) (ob : Orderbook) (entries : List SubEntry)
    (stIn : TraderState) (evs : List TraderEvent) (iid : Nat) (ref : InstrumentRef) :
    mapGet iid (writeEntries sid ob ({ stIn with refsOrderbook := mapSet iid { ref with lastOrderbookData := some ob } stIn.refsOrderbook }, evs) entries).1.refsOrderbook
      = some { ref with lastOrderbookData := some ob } := by
  rw [(writeEntries_frame sid ob entries _).2.2.1]
  show mapGet iid (mapSet iid { ref with lastOrderbookData := some ob } stIn.refsOrderbook)
    = _
  rw [mapGet_mapSet, if_pos rfl]

theorem routeBook_refs_none (ob : Orderbook) (instr : Instrument)
    (subs : List (Source × List SubEntry)) :
    ∀ acc : TraderState × List TraderEvent,
      mapGet instr.id acc.1.refsOrderbook = none →
      routeBook ob instr acc subs = acc := by
  induction subs with
  | nil => intro acc _; rfl
  | cons p rest ih =>
    obtain ⟨src, entries⟩ := p
    intro acc hnone
    rw [routeBook_cons]
    rcases routeBook_step ob instr src entries acc with ⟨hstep, _⟩ | ⟨si, ref, _, _, href, _⟩
    · rw [hstep]; exact ih acc hnone
    · rw [hnone] at href; exact Option.noConfusion href

theorem routeBook_refs_lookup (ob : Orderbook) (instr : Instrument)
    (subs : List (Source × List SubEntry)) :
    ∀ (acc : TraderState × List TraderEvent) (r : InstrumentRef),
      mapGet instr.id acc.1.refsOrderbook = some r →
      ∃ r2, mapGet instr.id (routeBook ob instr acc subs).1.refsOrderbook = some r2 ∧
        (r2 = r ∨ r2 = { r with lastOrderbookData := some ob }) := by
  induction subs with
  | nil => intro acc r hr; exact ⟨r, hr, Or.inl rfl⟩
  | cons p rest ih =>
    obtain ⟨src, entries⟩ := p
    intro acc r hr
    rw [routeBook_cons]
    rcases routeBook_step ob instr src entries acc with ⟨hstep, _⟩ | ⟨si, ref, hsi, hid, href, hstep⟩
    · rw [hstep]; exact ih acc r hr
    · rw [hr] at href
      have hrr : ref = r := by injection href with h; exact h.symm
      subst hrr
      rw [hstep]
      have hmid := writeEntries_refs_after src.sid ob entries acc.1
        (acc.2 ++ [TraderEvent.cacheWrite instr.id]) instr.id ref
      obtain ⟨r2, hr2, hdisj⟩ := ih _ _ hmid
      refine ⟨r2, hr2, ?_⟩
      rcases hdisj with h | h
      · exact Or.inr h
      · exact Or.inr h

theorem routeBook_frame (ob : Orderbook) (instr : Instrument)
    (subs : List (Source × List SubEntry)) :
    ∀ acc : TraderState × List TraderEvent,
      (routeBook ob instr acc subs).1.figis = acc.1.figis ∧
      (routeBook ob instr acc subs).1.subsOrderbook = acc.1.subsOrderbook ∧
      (routeBook ob instr acc subs).1.refsAllTrades = acc.1.refsAllTrades := by
  induction subs with
  | nil => intro acc; exact ⟨rfl, rfl, rfl⟩
  | cons p rest ih =>
    obtain ⟨src2, entries2⟩ := p
    intro acc
    rw [routeBook_cons]
    rcases routeBook_step ob instr src2 entries2 acc with ⟨hstep, _⟩ |
      ⟨si2, ref, hsi2, hid2, href2, hstep⟩
    · rw [hstep]; exact ih acc
    · rw [hstep]
      obtain ⟨hf, hs, ht⟩ := ih (writeEntries src2.sid ob ({ acc.1 with refsOrderbook := mapSet instr.id { ref with lastOrderbookData := some ob } acc.1.refsOrderbook }, acc.2 ++ [TraderEvent.cacheWrite instr.id]) entries2)
      obtain ⟨wf, wsub, wro, wrt⟩ := writeEntries_frame src2.sid ob entries2 ({ acc.1 with refsOrderbook := mapSet instr.id { ref with lastOrderbookData := some ob } acc.1.refsOrderbook }, acc.2 ++ [TraderEvent.cacheWrite instr.id])
      exact ⟨hf.trans wf, hs.trans wsub, ht.trans wrt⟩

theorem routeBook_fields_stable (ob : Orderbook) (instr : Instrument)
    (subs : List (Source × List SubEntry)) :
    ∀ (acc : TraderState × List TraderEvent) (k : Nat × String),
      mapGet k acc.1.consumerFields = some (projectBook ob) →
      mapGet k (routeBook ob instr acc subs).1.consumerFields = some (projectBook ob) := by
  induction subs with
  | nil => intro acc k hk; exact hk
  | cons p rest ih =>
    obtain ⟨src2, entries2⟩ := p
    intro acc k hk
    rw [routeBook_cons]
    rcases routeBook_step ob instr src2 entries2 acc with ⟨hstep, _⟩ |
      ⟨si2, ref, hsi2, hid2, href2, hstep⟩
    · rw [hstep]; exact ih acc k hk
    · rw [hstep]
      apply ih
      apply writeEntries_fields_stable
      exact hk

theorem routeBook_cache_written (ob : Orderbook) (instr : Instrument)
    (subs : List (Source × List SubEntry)) :
    ∀ (acc : TraderState × List TraderEvent) (src : Source) (si : Instrument)
      (entries : List SubEntry),
      (src, entries) ∈ subs → src.instrument = some si → si.id = instr.id →
      (∃ r, mapGet instr.id acc.1.refsOrderbook = some r) →
      ∃ r2, mapGet instr.id (routeBook ob instr acc subs).1.refsOrderbook = some r2 ∧
        r2.lastOrderbookData = some ob := by
  induction subs with
  | nil => intro acc src si entries hmem; exact absurd hmem (List.not_mem_nil _)
  | cons p rest ih =>
    obtain ⟨src2, entries2⟩ := p
    intro acc src si entries hmem hsi hid hex
    obtain ⟨r, hr⟩ := hex
    rw [routeBook_cons]
    rcases List.mem_cons.mp hmem with heq | hmem2
    · injection heq with h1 h2
      subst h1
      subst h2
      rcases routeBook_step ob instr src entries acc with ⟨hstep, hwhy⟩ |
        ⟨si2, ref, hsi2, hid2, href2, hstep⟩
      · exact absurd (routeBook_step_reason_absurd src si instr acc.1.refsOrderbook r
          hsi hid hr hwhy) (fun hcontra => hcontra)
      · rw [hstep]
        have hmid := writeEntries_refs_after src.sid ob entries acc.1
          (acc.2 ++ [TraderEvent.cacheWrite instr.id]) instr.id ref
        obtain ⟨r2, hr2, hdisj⟩ := routeBook_refs_lookup ob instr rest _ _ hmid
        refine ⟨r2, hr2, ?_⟩
        rcases hdisj with h | h
        · rw [h]
        · rw [h]
    · rcases routeBook_step ob instr src2 entries2 acc with ⟨hstep, _⟩ |
        ⟨si2, ref, hsi2, hid2, href2, hstep⟩
      · rw [hstep]; exact ih acc src si entries hmem2 hsi hid ⟨r, hr⟩
      · rw [hstep]
        have hmid := writeEntries_refs_after src2.sid ob entries2 acc.1
          (acc.2 ++ [TraderEvent.cacheWrite instr.id]) instr.id ref
        exact ih _ src si entries hmem2 hsi hid ⟨_, hmid⟩

theorem routeBook_field_written (ob : Orderbook) (instr : Instrument)
    (subs : List (Source × List SubEntry)) :
    ∀ (acc : TraderState × List TraderEvent) (src : Source) (si : Instrument)
      (entries : List SubEntry) (e : SubEntry),
      (src, entries) ∈ subs → src.instrument = some si → si.id = instr.id →
      (∃ r, mapGet instr.id acc.1.refsOrderbook = some r) →
      e ∈ entries → e.datum = TRADER_DATUM.ORDERBOOK →
      mapGet (src.sid, e.field) (routeBook ob instr acc subs).1.consumerFields
        = some (projectBook ob) := by
  induction subs with
  | nil => intro acc src si entries e hmem; exact absurd hmem (List.not_mem_nil _)
  | cons p rest ih =>
    obtain ⟨src2, entries2⟩ := p
    intro acc src si entries e hmem hsi hid hex he hed
    obtain ⟨r, hr⟩ := hex
    rw [routeBook_cons]
    rcases List.mem_cons.mp hmem with heq | hmem2
    · injection heq with h1 h2
      subst h1
      subst h2
      rcases routeBook_step ob instr src entries acc with ⟨hstep, hwhy⟩ |
        ⟨si2, ref, hsi2, hid2, href2, hstep⟩
      · exact absurd (routeBook_step_reason_absurd src si instr acc.1.refsOrderbook r
          hsi hid hr hwhy) (fun hcontra => hcontra)
      · rw [hstep]
        apply routeBook_fields_stable
        exact writeEntries_field_written src.sid ob entries _ e he hed
    · rcases routeBook_step ob instr src2 entries2 acc with ⟨hstep, _⟩ |
        ⟨si2, ref, hsi2, hid2, href2, hstep⟩
      · rw [hstep]; exact ih acc src si entries e hmem2 hsi hid ⟨r, hr⟩ he hed
      · rw [hstep]
        have hmid := writeEntries_refs_after src2.sid ob entries2 acc.1
          (acc.2 ++ [TraderEvent.cacheWrite instr.id]) instr.id ref
        exact ih _ src si entries e hmem2 hsi hid ⟨_, hmid⟩ he hed

theorem routeBook_fields_change (ob : Orderbook) (instr : Instrument)
    (subs : List (Source × List SubEntry)) :
    ∀ (acc : TraderState × List TraderEvent) (k : Nat × String),
      mapGet k (routeBook ob instr acc subs).1.consumerFields
        ≠ mapGet k acc.1.consumerFields →
      ∃ p ∈ subs, ∃ si, p.1.instrument = some si ∧ si.id = instr.id ∧ p.1.sid = k.1 ∧
        ∃ e ∈ p.2, e.datum = TRADER_DATUM.ORDERBOOK ∧ e.field = k.2 := by
  induction subs with
  | nil => intro acc k hk; exact absurd rfl hk
  | cons p rest ih =>
    obtain ⟨src2, entries2⟩ := p
    intro acc k hk
    rw [routeBook_cons] at hk
    rcases routeBook_step ob instr src2 entries2 acc with ⟨hstep, _⟩ |
      ⟨si2, ref, hsi2, hid2, href2, hstep⟩
    · rw [hstep] at hk
      obtain ⟨q, hq, rest1⟩ := ih acc k hk
      exact ⟨q, List.mem_cons_of_mem _ hq, rest1⟩
    · rw [hstep] at hk
      set W := writeEntries src2.sid ob ({ acc.1 with refsOrderbook := mapSet instr.id { ref with lastOrderbookData := some ob } acc.1.refsOrderbook }, acc.2 ++ [TraderEvent.cacheWrite instr.id]) entries2 with hW
      by_cases hWc : mapGet k W.1.consumerFields = mapGet k acc.1.consumerFields
      · rw [← hWc] at hk
        obtain ⟨q, hq, rest1⟩ := ih W k hk
        exact ⟨q, List.mem_cons_of_mem _ hq, rest1⟩
      · obtain ⟨e, he, hde, hke⟩ := writeEntries_fields_change src2.sid ob entries2 _ k hWc
        refine ⟨(src2, entries2), List.mem_cons_self _ _, si2, hsi2, hid2, ?_, e, he, hde, ?_⟩
        · rw [← hke]
        · rw [← hke]

theorem blockOk_nil (iid : Nat) : blockOk iid [] := by
  intro j sid f hj
  simp at hj

theorem blockOk_cache_cons (iid : Nat) (ws : List TraderEvent) :
    blockOk iid (TraderEvent.cacheWrite iid :: ws) := by
  intro j sid f hj
  cases j with
  | zero => simp at hj
  | succ n => exact ⟨0, Nat.succ_pos n, by simp⟩

theorem routeBook_events (ob : Orderbook) (instr : Instrument)
    (subs : List (Source × List SubEntry)) :
    ∀ acc : TraderState × List TraderEvent,
      ∃ tail, (routeBook ob instr acc subs).2 = acc.2 ++ tail ∧ blockOk instr.id tail := by
  induction subs with
  | nil => intro acc; exact ⟨[], (List.append_nil _).symm, blockOk_nil _⟩
  | cons p rest ih =>
    obtain ⟨src2, entries2⟩ := p
    intro acc
    rw [routeBook_cons]
    rcases routeBook_step ob instr src2 entries2 acc with ⟨hstep, _⟩ |
      ⟨si2, ref, hsi2, hid2, href2, hstep⟩
    · rw [hstep]; exact ih acc
    · rw [hstep]
      set W := writeEntries src2.sid ob ({ acc.1 with refsOrderbook := mapSet instr.id { ref with lastOrderbookData := some ob } acc.1.refsOrderbook }, acc.2 ++ [TraderEvent.cacheWrite instr.id]) entries2 with hW
      obtain ⟨ws, hws, hall⟩ := writeEntries_events src2.sid ob entries2
        ({ acc.1 with refsOrderbook := mapSet instr.id { ref with lastOrderbookData := some ob } acc.1.refsOrderbook }, acc.2 ++ [TraderEvent.cacheWrite instr.id])
      obtain ⟨tail, htail, _⟩ := ih W
      refine ⟨TraderEvent.cacheWrite instr.id :: (ws ++ tail), ?_, ?_⟩
      · rw [htail, ← hW] at *
        rw [htail]
        rw [show W.2 = (acc.2 ++ [TraderEvent.cacheWrite instr.id]) ++ ws from hws]
        simp [List.append_assoc]
      · exact blockOk_cache_cons instr.id (ws ++ tail)

theorem routeBook_cache_mem (ob : Orderbook) (instr : Instrument)
    (subs : List (Source × List SubEntry)) :
    ∀ acc : TraderState × List TraderEvent,
      TraderEvent.cacheWrite instr.id ∉ acc.2 →
      TraderEvent.cacheWrite instr.id ∈ (routeBook ob instr acc subs).2 →
      ∃ r2, mapGet instr.id (routeBook ob instr acc subs).1.refsOrderbook = some r2 ∧
        r2.lastOrderbookData = some ob := by
  induction subs with
  | nil => intro acc hnot hmem; exact absurd hmem hnot
  | cons p rest ih =>
    obtain ⟨src2, entries2⟩ := p
    intro acc hnot hmem
    rw [routeBook_cons] at hmem ⊢
    rcases routeBook_step ob instr src2 entries2 acc with ⟨hstep, _⟩ |
      ⟨si2, ref, hsi2, hid2, href2, hstep⟩
    · rw [hstep] at hmem ⊢
      exact ih acc hnot hmem
    · rw [hstep] at hmem ⊢
      have hmid := writeEntries_refs_after src2.sid ob entries2 acc.1
        (acc.2 ++ [TraderEvent.cacheWrite instr.id]) instr.id ref
      obtain ⟨r2, hr2, hdisj⟩ := routeBook_refs_lookup ob instr rest _ _ hmid
      refine ⟨r2, hr2, ?_⟩
      rcases hdisj with h | h
      · rw [h]
      · rw [h]

/-- C9: a routed book message for instrument I writes only the target
fields of subscription entries whose widget is bound to I (any changed
field key belongs to such an entry); a message whose wire figi does not
resolve in the `#figis` index is dropped with no state change and no
events (and, the routing being a total function, no error). -/
theorem C9_routing_isolation (ob : Orderbook) (instr : Instrument) (st st' : TraderState)
    (evs : List TraderEvent)
    (heq : onOrderbookMessage (some ob) (some instr) st = (st', evs)) :
    (∀ k : Nat × String,
      mapGet k st'.consumerFields ≠ mapGet k st.consumerFields →
      ∃ p ∈ st.subsOrderbook, ∃ si, p.1.instrument = some si ∧ si.id = instr.id ∧
        p.1.sid = k.1 ∧ ∃ e ∈ p.2, e.datum = TRADER_DATUM.ORDERBOOK ∧ e.field = k.2) ∧
    (∀ (ob2 : Orderbook) (st2 : TraderState), mapGet ob2.figi st2.figis = none →
      handleOrderbookStreamData ob2 st2 = (st2, [])) := by
  constructor
  · intro k hk
    have hst : st' = (routeBook ob instr (st, []) st.subsOrderbook).1 :=
      (congrArg Prod.fst heq).symm
    rw [hst] at hk
    exact routeBook_fields_change ob instr st.subsOrderbook (st, []) k hk
  · intro ob2 st2 h
    unfold handleOrderbookStreamData
    rw [h]
    rfl

/-- C9 (witness): the one-widget state; the written field key is traced
back to its subscription entry. -/
theorem C9_witness :
    (mapGet (5, "orderbook")
        (onOrderbookMessage (some bookA) (some instrA) stA).1.consumerFields
      ≠ mapGet (5, "orderbook") stA.consumerFields) ∧
    (∃ p ∈ stA.subsOrderbook, ∃ si, p.1.instrument = some si ∧ si.id = instrA.id ∧
      p.1.sid = ((5, "orderbook") : Nat × String).1 ∧
      ∃ e ∈ p.2, e.datum = TRADER_DATUM.ORDERBOOK ∧
        e.field = ((5, "orderbook") : Nat × String).2) := by
  refine ⟨by decide, ?_⟩
  exact (C9_routing_isolation bookA instrA stA
    (onOrderbookMessage (some bookA) (some instrA) stA).1
    (onOrderbookMessage (some bookA) (some instrA) stA).2 rfl).1
    (5, "orderbook") (by decide)

/-- C10: with a present message and resolved instrument, consumer fields
are written only when an order-book ref for the instrument exists (with
no ref the call is a complete no-op); whenever a field write occurs, a
cache write of the raw message into the ref's `lastOrderbookData`
precedes it in the event order, and the final state holds the raw
message as that ref's cached snapshot. -/
theorem C10_cache_before_fields (ob : Orderbook) (instr : Instrument)
    (st st' : TraderState) (evs : List TraderEvent)
    (heq : onOrderbookMessage (some ob) (some instr) st = (st', evs)) :
    (mapGet instr.id st.refsOrderbook = none → st' = st ∧ evs = []) ∧
    (∀ (j sid : Nat) (f : String), evs[j]? = some (TraderEvent.fieldWrite sid f) →
      (∃ i : Nat, i < j ∧ evs[i]? = some (TraderEvent.cacheWrite instr.id)) ∧
      ∃ r, mapGet instr.id st'.refsOrderbook = some r ∧
        r.lastOrderbookData = some ob) := by
  have heq2 : routeBook ob instr (st, []) st.subsOrderbook = (st', evs) := heq
  constructor
  · intro hnone
    have hid := routeBook_refs_none ob instr st.subsOrderbook (st, []) hnone
    rw [hid] at heq2
    injection heq2 with h1 h2
    exact ⟨h1.symm, h2.symm⟩
  · intro j sid f hj
    obtain ⟨tail, htail, hblock⟩ := routeBook_events ob instr st.subsOrderbook (st, [])
    have hevs : evs = tail := by
      have h2 := congrArg Prod.snd heq2
      rw [htail] at h2
      simpa using h2.symm
    rw [hevs] at hj
    constructor
    · rw [hevs]
      exact hblock j sid f hj
    · obtain ⟨i, _, hi⟩ := hblock j sid f hj
      have hmem : TraderEvent.cacheWrite instr.id
          ∈ (routeBook ob instr (st, []) st.subsOrderbook).2 := by
        rw [htail]
        exact List.mem_append.mpr (Or.inr (List.getElem?_mem hi))
      have hnotin : TraderEvent.cacheWrite instr.id
          ∉ ((st, []) : TraderState × List TraderEvent).2 := by simp
      obtain ⟨r2, hr2, hlast⟩ := routeBook_cache_mem ob instr st.subsOrderbook (st, [])
        hnotin hmem
      refine ⟨r2, ?_, hlast⟩
      have h1 : (routeBook ob instr (st, []) st.subsOrderbook).1 = st' :=
        congrArg Prod.fst heq2
      rw [← h1]
      exact hr2

/-- C10 (witness): on the one-widget state the event list is the cache
write followed by the field write, and the cache ends up holding the raw
message. -/
theorem C10_witness :
    ((onOrderbookMessage (some bookA) (some instrA) stA).2[1]?
        = some (TraderEvent.fieldWrite 5 "orderbook")) ∧
    ((∃ i : Nat, i < 1 ∧ (onOrderbookMessage (some bookA) (some instrA) stA).2[i]?
        = some (TraderEvent.cacheWrite instrA.id)) ∧
      ∃ r, mapGet instrA.id
          (onOrderbookMessage (some bookA) (some instrA) stA).1.refsOrderbook = some r ∧
        r.lastOrderbookData = some bookA) := by
  refine ⟨by decide, ?_⟩
  exact (C10_cache_before_fields bookA instrA stA
    (onOrderbookMessage (some bookA) (some instrA) stA).1
    (onOrderbookMessage (some bookA) (some instrA) stA).2 rfl).2 1 5 "orderbook"
    (by decide)

/-- C4: for an instrument and kind with no pre-existing ref,
`addFirstRef` stores an InstrumentRef with count 1, makes the instrument
resolvable by figi, and for the order-book kind fetches the snapshot via
the unary call (the first event) and applies it — seeding the ref cache
and every bound widget's field with the projected snapshot — strictly
before the resubscribe signal, which is the last event. -/
theorem C4_addFirstRef (instrument : Instrument) (kind : RefKind) (snapshot : Orderbook)
    (st st' : TraderState) (evs : List TraderEvent)
    (hnoref : mapGet instrument.id (refsOf kind st) = none)
    (heq : addFirstRef instrument kind snapshot st = (st', evs)) :
    (∃ r, mapGet instrument.id (refsOf kind st') = some r ∧ r.refCount = 1 ∧
      r.instrument = instrument) ∧
    mapGet instrument.tinkoffFigi st'.figis = some instrument ∧
    (kind = RefKind.orderbook →
      (∃ inner, evs = TraderEvent.unaryGetOrderBook instrument.tinkoffFigi 50 ::
        (inner ++ [TraderEvent.signalResubscribe false])) ∧
      ∀ p ∈ st.subsOrderbook, ∀ si, p.1.instrument = some si → si.id = instrument.id →
        ((∃ rr, mapGet instrument.id st'.refsOrderbook = some rr ∧
            rr.lastOrderbookData = some snapshot) ∧
          ∀ e ∈ p.2, e.datum = TRADER_DATUM.ORDERBOOK →
            mapGet (p.1.sid, e.field) st'.consumerFields = some (projectBook snapshot))) := by
  cases kind with
  | orderbook =>
    have hdef : addFirstRef instrument RefKind.orderbook snapshot st
        = ((routeBook snapshot instrument ({ st with figis := mapSet instrument.tinkoffFigi instrument st.figis, refsOrderbook := mapSet instrument.id { refCount := 1, instrument := instrument } st.refsOrderbook }, []) st.subsOrderbook).1,
           TraderEvent.unaryGetOrderBook instrument.tinkoffFigi 50 ::
             ((routeBook snapshot instrument ({ st with figis := mapSet instrument.tinkoffFigi instrument st.figis, refsOrderbook := mapSet instrument.id { refCount := 1, instrument := instrument } st.refsOrderbook }, []) st.subsOrderbook).2
               ++ [TraderEvent.signalResubscribe false])) := rfl
    rw [hdef] at heq
    injection heq with hst hevs
    have hr0 : mapGet instrument.id (mapSet instrument.id
        ({ refCount := 1, instrument := instrument } : InstrumentRef) st.refsOrderbook)
        = some { refCount := 1, instrument := instrument } := by
      rw [mapGet_mapSet, if_pos rfl]
    refine ⟨?_, ?_, ?_⟩
    · obtain ⟨r2, hr2, hdisj⟩ := routeBook_refs_lookup snapshot instrument
        st.subsOrderbook ({ st with figis := mapSet instrument.tinkoffFigi instrument st.figis, refsOrderbook := mapSet instrument.id { refCount := 1, instrument := instrument } st.refsOrderbook }, []) _ hr0
      rw [hst] at hr2
      refine ⟨r2, hr2, ?_⟩
      rcases hdisj with h | h
      · rw [h]; exact ⟨rfl, rfl⟩
      · rw [h]; exact ⟨rfl, rfl⟩
    · rw [← hst]
      rw [(routeBook_frame snapshot instrument st.subsOrderbook _).1]
      show mapGet instrument.tinkoffFigi
        (mapSet instrument.tinkoffFigi instrument st.figis) = _
      rw [mapGet_mapSet, if_pos rfl]
    · intro _
      constructor
      · exact ⟨_, hevs.symm⟩
      · intro p hp si hpsi hsid
        constructor
        · obtain ⟨rr, hrr, hlast⟩ := routeBook_cache_written snapshot instrument
            st.subsOrderbook ({ st with figis := mapSet instrument.tinkoffFigi instrument st.figis, refsOrderbook := mapSet instrument.id { refCount := 1, instrument := instrument } st.refsOrderbook }, []) p.1 si p.2 hp hpsi hsid ⟨_, hr0⟩
          rw [hst] at hrr
          exact ⟨rr, hrr, hlast⟩
        · intro e he hed
          have hw := routeBook_field_written snapshot instrument st.subsOrderbook
            ({ st with figis := mapSet instrument.tinkoffFigi instrument st.figis, refsOrderbook := mapSet instrument.id { refCount := 1, instrument := instrument } st.refsOrderbook }, []) p.1 si p.2 e hp hpsi hsid ⟨_, hr0⟩ he hed
          rw [hst] at hw
          exact hw
  | allTrades =>
    have hdef : addFirstRef instrument RefKind.allTrades snapshot st
        = ({ st with figis := mapSet instrument.tinkoffFigi instrument st.figis, refsAllTrades := mapSet instrument.id { refCount := 1, instrument := instrument } st.refsAllTrades }, [TraderEvent.signalResubscribe false]) := rfl
    rw [hdef] at heq
    injection heq with hst hevs
    refine ⟨?_, ?_, ?_⟩
    · rw [← hst]
      show ∃ r, mapGet instrument.id (mapSet instrument.id
        ({ refCount := 1, instrument := instrument } : InstrumentRef) st.refsAllTrades)
        = some r ∧ r.refCount = 1 ∧ r.instrument = instrument
      rw [mapGet_mapSet, if_pos rfl]
      exact ⟨_, rfl, rfl, rfl⟩
    · rw [← hst]
      show mapGet instrument.tinkoffFigi
        (mapSet instrument.tinkoffFigi instrument st.figis) = _
      rw [mapGet_mapSet, if_pos rfl]
    · intro h
      exact RefKind.noConfusion h

/-- C4 (witness): first order-book ref for `instrA` with one widget
subscribed, seeded from snapshot `bookA`. -/
theorem C4_witness :
    mapGet instrA.id (refsOf RefKind.orderbook stNoRef) = none ∧
    ((∃ r, mapGet instrA.id (refsOf RefKind.orderbook
        (addFirstRef instrA RefKind.orderbook bookA stNoRef).1) = some r ∧
      r.refCount = 1 ∧ r.instrument = instrA) ∧
    mapGet instrA.tinkoffFigi (addFirstRef instrA RefKind.orderbook bookA stNoRef).1.figis
      = some instrA ∧
    (RefKind.orderbook = RefKind.orderbook →
      (∃ inner, (addFirstRef instrA RefKind.orderbook bookA stNoRef).2
          = TraderEvent.unaryGetOrderBook instrA.tinkoffFigi 50 ::
            (inner ++ [TraderEvent.signalResubscribe false])) ∧
      ∀ p ∈ stNoRef.subsOrderbook, ∀ si, p.1.instrument = some si → si.id = instrA.id →
        ((∃ rr, mapGet instrA.id
            (addFirstRef instrA RefKind.orderbook bookA stNoRef).1.refsOrderbook
              = some rr ∧
            rr.lastOrderbookData = some bookA) ∧
          ∀ e ∈ p.2, e.datum = TRADER_DATUM.ORDERBOOK →
            mapGet (p.1.sid, e.field)
              (addFirstRef instrA RefKind.orderbook bookA stNoRef).1.consumerFields
              = some (projectBook bookA)))) :=
  ⟨rfl, C4_addFirstRef instrA RefKind.orderbook bookA stNoRef
    (addFirstRef instrA RefKind.orderbook bookA stNoRef).1
    (addFirstRef instrA RefKind.orderbook bookA stNoRef).2 rfl rfl⟩

end Tinkoff
